import Mathlib

/-!
# Verification of the fuel-price survey ingestion and aggregation core (`app.py`)

This file is a shallow embedding of the core of `app.py`:

* the ingestion pipeline of `upload_file` (lines 129–151): reading the incoming
  CSV rows, dropping fully-empty rows (`dropna(how='all')`), dropping rows with a
  missing key field (`dropna(subset=['cnpj_revenda','data_coleta','produto'])`),
  dropping intra-batch duplicates of the *raw* key triple
  (`drop_duplicates(subset=...)`, `keep='first'`), stripping `cnpj_revenda` and
  `produto`, parsing `data_coleta` with `pd.to_datetime(format='%d/%m/%Y',
  errors='coerce')`, the anti-join against the existing records
  (`merge(..., how='left', indicator=True)`), and the append into the SQLite
  table whose schema declares `UNIQUE(cnpj_revenda, data_coleta, produto)`;

* the aggregation engine of `dashboard` (lines 55–112): KPIs, the per-product
  time series with `rolling(window=30, min_periods=1).mean()`, the geographic
  ranking, and the mode-product price distribution with a 30-bin histogram.

Modelling conventions (each noted again at the definition it concerns):

* CSV cells are `Option String` (`none` = pandas `NaN`); the header renaming of
  line 134 is modelled by using the canonical field names directly.
* Dates are represented by a typed `Date` value instead of the canonical
  `'%Y-%m-%d'` string the code stores: `strftime('%Y-%m-%d')` followed by
  `pd.to_datetime` is the identity on canonical date strings, so the typed value
  models the equivalence class of textual forms.
* `pandas.merge` matches `NaN` keys with `NaN` keys, so key comparison in the
  anti-join is plain `Option` equality (`none = none` holds).  The SQLite
  `UNIQUE` constraint, in contrast, never considers a `NULL` equal to anything,
  which the conflict predicate reflects.
* `to_sql` appends all rows inside one transaction and rolls back on an
  `IntegrityError`, so a failed insert leaves the store unchanged; ingestion is
  therefore `Option`-valued, `none` meaning the request fails with an error.
-/

/-! ## Python `str.strip()` -/

/-- Whitespace as stripped by Python's `str.strip()` (line 138,
`.str.strip()`), modelled by `Char.isWhitespace`. -/
def wsChar (c : Char) : Bool := c.isWhitespace

/-- Strip whitespace from both ends of a character list. -/
def stripList (l : List Char) : List Char :=
  List.rdropWhile wsChar (List.dropWhile wsChar l)

/-- Python's `str.strip()` on a `String`. -/
def strip (s : String) : String := ⟨stripList s.data⟩

/-! ## Calendar dates and `pd.to_datetime(format='%d/%m/%Y', errors='coerce')` -/

/-- A calendar date, the typed stand-in for the canonical `'%Y-%m-%d'` string
produced by line 141. -/
structure Date where
  ano : ℕ
  mes : ℕ
  dia : ℕ
deriving DecidableEq, Repr

/-- Gregorian leap year. -/
def anoBissexto (y : ℕ) : Bool :=
  y % 4 == 0 && (y % 100 != 0 || y % 400 == 0)

/-- Days in a month, as validated by the datetime parser. -/
def diasNoMes (y m : ℕ) : ℕ :=
  if m = 1 ∨ m = 3 ∨ m = 5 ∨ m = 7 ∨ m = 8 ∨ m = 10 ∨ m = 12 then 31
  else if m = 4 ∨ m = 6 ∨ m = 9 ∨ m = 11 then 30
  else if anoBissexto y then 29 else 28

/-- Split a character list at every `'/'` (the field separator of the
`%d/%m/%Y` format). -/
def splitBarra : List Char → List (List Char)
  | [] => [[]]
  | c :: cs =>
    let r := splitBarra cs
    if c = '/' then [] :: r
    else
      match r with
      | [] => [[c]]
      | h :: t => (c :: h) :: t

/-- Decimal value of a run of digit characters (left fold, most significant
first). -/
def valorDigitos (l : List Char) : ℕ :=
  l.foldl (fun n c => 10 * n + (c.toNat - 48)) 0

/-- Parse a nonempty all-digit character run as a natural number. -/
def parseNat (l : List Char) : Option ℕ :=
  if l ≠ [] ∧ l.all (fun c => decide (48 ≤ c.toNat) && decide (c.toNat ≤ 57))
  then some (valorDigitos l) else none

/-- `pd.to_datetime(s, format='%d/%m/%Y', errors='coerce')` (line 141) on one
cell: day and month of one or two digits, a four-digit year, a valid calendar
date; anything else coerces to `NaT` (`none`).  Years outside pandas'
`Timestamp` nanosecond bounds also coerce; we model the bound conservatively by
the full years 1678–2261. -/
def parseDataColeta (s : String) : Option Date :=
  match splitBarra s.data with
  | [d, m, y] =>
    match parseNat d, parseNat m, parseNat y with
    | some dn, some mn, some yn =>
      if d.length ≤ 2 ∧ m.length ≤ 2 ∧ y.length = 4 ∧
         1 ≤ mn ∧ mn ≤ 12 ∧ 1 ≤ dn ∧ dn ≤ diasNoMes yn mn ∧
         1678 ≤ yn ∧ yn ≤ 2261
      then some ⟨yn, mn, dn⟩ else none
    | _, _, _ => none
  | _ => none

/-! ## The ingestion pipeline of `upload_file` (lines 129–151) -/

/-- One raw CSV row after the header renaming of line 134.  Each cell is
`Option String`: `none` is a pandas `NaN` (empty cell). -/
structure RawRow where
  regiaoSigla : Option String
  estadoSigla : Option String
  municipio : Option String
  revenda : Option String
  cnpjRevenda : Option String
  produto : Option String
  dataColeta : Option String
  valorVenda : Option String
  valorCompra : Option String
  unidadeMedida : Option String
  bandeira : Option String
deriving DecidableEq, Repr

/-- `df_new.dropna(how='all')` (line 133) drops a row exactly when every cell
is `NaN`. -/
def linhaVazia (x : RawRow) : Bool :=
  x.regiaoSigla.isNone && x.estadoSigla.isNone && x.municipio.isNone &&
  x.revenda.isNone && x.cnpjRevenda.isNone && x.produto.isNone &&
  x.dataColeta.isNone && x.valorVenda.isNone && x.valorCompra.isNone &&
  x.unidadeMedida.isNone && x.bandeira.isNone

/-- `df_new.dropna(subset=['cnpj_revenda','data_coleta','produto'])`
(line 135): the three key cells are present.  Note this runs *before* date
parsing, so a present but unparsable date text passes this filter. -/
def chavePresente (x : RawRow) : Bool :=
  x.cnpjRevenda.isSome && x.dataColeta.isSome && x.produto.isSome

/-- The raw textual key triple used by `drop_duplicates(subset=...)`
(line 136), taken before any stripping or date parsing. -/
def chaveBruta (x : RawRow) : Option String × Option String × Option String :=
  (x.cnpjRevenda, x.dataColeta, x.produto)

/-- `drop_duplicates(subset=['cnpj_revenda','data_coleta','produto'])` with the
default `keep='first'`: keep a row iff its raw key triple has not been seen
earlier in the file. -/
def dropDuplicatesAux (seen : List (Option String × Option String × Option String)) :
    List RawRow → List RawRow
  | [] => []
  | x :: xs =>
    if chaveBruta x ∈ seen then dropDuplicatesAux seen xs
    else x :: dropDuplicatesAux (chaveBruta x :: seen) xs

/-- Line 136, starting from no seen keys. -/
def dropDuplicates (l : List RawRow) : List RawRow := dropDuplicatesAux [] l

/-- The cleaned `df_new` of lines 133–136: drop all-empty rows, drop rows with
a missing key cell, drop intra-batch raw-key duplicates. -/
def dfNewRows (file : List RawRow) : List RawRow :=
  dropDuplicates ((file.filter (fun x => !linhaVazia x)).filter chavePresente)

/-- One stored record (a row of table `precos_combustiveis` as the pipeline
inserts it): `cnpj_revenda` and `produto` are the stripped strings of line
137–138, `data_coleta` is the parsed date of line 141 (`none` when the text
failed to parse, stored as SQL `NULL`), and every other column carries the raw
cell through unchanged (line 147–148 inserts them as they are, so an
unparsable `valor_venda` text is stored verbatim). -/
structure Registro where
  regiaoSigla : Option String
  estadoSigla : Option String
  municipio : Option String
  revenda : Option String
  cnpjRevenda : String
  produto : String
  dataColeta : Option Date
  valorVenda : Option String
  valorCompra : Option String
  unidadeMedida : Option String
  bandeira : Option String
deriving DecidableEq, Repr

/-- Lines 137–141 applied to one surviving row: strip `cnpj_revenda` and
`produto`, overwrite `data_coleta` with its parsed form, keep the rest.  The
`getD ""` defaults are never reached on rows that passed `chavePresente`. -/
def normalizaLinha (x : RawRow) : Registro where
  regiaoSigla := x.regiaoSigla
  estadoSigla := x.estadoSigla
  municipio := x.municipio
  revenda := x.revenda
  cnpjRevenda := strip (x.cnpjRevenda.getD "")
  produto := strip (x.produto.getD "")
  dataColeta := parseDataColeta (x.dataColeta.getD "")
  valorVenda := x.valorVenda
  valorCompra := x.valorCompra
  unidadeMedida := x.unidadeMedida
  bandeira := x.bandeira

/-- The normalized batch handed to the merge of line 144. -/
def lote (file : List RawRow) : List Registro :=
  (dfNewRows file).map normalizaLinha

/-- The merge key of an incoming batch row: its columns as they stand after
lines 137–141 (already stripped and parsed). -/
def chaveNova (t : Registro) : String × Option Date × String :=
  (t.cnpjRevenda, t.dataColeta, t.produto)

/-- The merge key of a stored record as `upload_file` recomputes it on read
(lines 131, 137–143): stored `cnpj_revenda`/`produto` are stripped again, and
the stored canonical date text round-trips through
`pd.to_datetime`/`strftime`, which is the identity on the typed date. -/
def chaveExistente (r : Registro) : String × Option Date × String :=
  (strip r.cnpjRevenda, r.dataColeta, strip r.produto)

/-- `existing_records` as key material (line 131 plus lines 137–143). -/
def chavesExistentes (S : List Registro) : List (String × Option Date × String) :=
  S.map chaveExistente

/-- `df_to_insert = df_merged[df_merged['_merge'] == 'left_only']` (lines
144–145).  `pandas.merge` matches `NaN` with `NaN`, so the key comparison is
plain equality of `Option` values. -/
def dfToInsert (S : List Registro) (file : List RawRow) : List Registro :=
  (lote file).filter (fun t => decide (chaveNova t ∉ chavesExistentes S))

/-- One step of the SQLite `UNIQUE(cnpj_revenda, data_coleta, produto)`
check: two rows conflict iff all three indexed values are equal and none is
`NULL` (SQLite never considers a `NULL` equal to anything, so rows with a
`NULL` `data_coleta` never conflict). -/
def conflitoUnique (a b : Registro) : Bool :=
  decide (a.cnpjRevenda = b.cnpjRevenda) && decide (a.produto = b.produto) &&
  a.dataColeta.isSome && decide (a.dataColeta = b.dataColeta)

/-- `to_sql(..., if_exists='append')` (line 148) inserts the batch row by row
inside one transaction; each row is checked by the `UNIQUE` index against the
table as grown so far.  `true` iff the whole append succeeds. -/
def insercaoOk : List Registro → List Registro → Bool
  | _, [] => true
  | S, t :: rest => S.all (fun r => !conflitoUnique r t) && insercaoOk (S ++ [t]) rest

/-- One call of the ingestion core of `upload_file` (lines 129–151) against
store `S`: `some (S', novos, duplicados)` on success, `none` when the append
raises an `IntegrityError` (the transaction rolls back, the store is
unchanged, and the caller gets an error response).  `novos = len(df_to_insert)`
(line 150) and `duplicados = len(df_new) - novos` (line 151). -/
def ingestao (S : List Registro) (file : List RawRow) :
    Option (List Registro × ℕ × ℕ) :=
  let ins := dfToInsert S file
  if insercaoOk S ins then
    some (S ++ ins, ins.length, (lote file).length - ins.length)
  else none

/-- The store after one upload request: updated on success, unchanged when the
ingestion fails (rollback). -/
def passoIngestao (S : List Registro) (file : List RawRow) : List Registro :=
  match ingestao S file with
  | some (S', _, _) => S'
  | none => S

/-- The store after a sequence of upload requests starting from the empty
table created by `init_db`. -/
def execIngestoes (files : List (List RawRow)) : List Registro :=
  files.foldl passoIngestao []

/-! ## The aggregation engine of `dashboard` (lines 55–112)

The dashboard reads the full table into a dataframe (`read_sql_query`, line
58) and converts `data_coleta` with `pd.to_datetime` (line 59).  The claims
about the aggregation engine concern its statistics on a well-typed record
collection, so its input is modelled by `RegistroLido`: one read row with a
typed date and a rational sale price. -/

/-- One row of the dataframe the dashboard aggregates. -/
structure RegistroLido where
  estadoSigla : String
  produto : String
  dataColeta : Date
  valorVenda : ℚ
deriving DecidableEq, Repr

/-- Keep the first occurrence of each element, preserving order (the order in
which pandas first meets each distinct value). -/
def dedupPrimeiroAux {α : Type} [DecidableEq α] (seen : List α) : List α → List α
  | [] => []
  | x :: xs =>
    if x ∈ seen then dedupPrimeiroAux seen xs
    else x :: dedupPrimeiroAux (x :: seen) xs

/-- First-occurrence deduplication. -/
def dedupPrimeiro {α : Type} [DecidableEq α] (l : List α) : List α :=
  dedupPrimeiroAux [] l

/-- Sort key of a date (chronological order). -/
def chaveData (d : Date) : ℕ := d.ano * 10000 + d.mes * 100 + d.dia

/-- Insert a date into a chronologically sorted list. -/
def insereData (x : Date) : List Date → List Date
  | [] => [x]
  | y :: ys => if chaveData x ≤ chaveData y then x :: y :: ys else y :: insereData x ys

/-- Sort dates chronologically (insertion sort). -/
def ordenaDatas (l : List Date) : List Date := l.foldr insereData []

/-- The mean of a list of rationals (`Series.mean`); only ever applied to
nonempty groups below. -/
def media (l : List ℚ) : ℚ := l.sum / (l.length : ℚ)

/-- The sorted distinct `data_coleta` values: the row index of
`df.groupby(['data_coleta','produto'])['valor_venda'].mean().unstack()`
(line 78), which sorts its keys ascending. -/
def datasOrdenadas (rs : List RegistroLido) : List Date :=
  ordenaDatas (dedupPrimeiro (rs.map (·.dataColeta)))

/-- The sale prices of product `p` on date `dt`. -/
def valoresData (rs : List RegistroLido) (p : String) (dt : Date) : List ℚ :=
  (rs.filter (fun r => decide (r.produto = p) && decide (r.dataColeta = dt))).map
    (·.valorVenda)

/-- Column `p` of the unstacked frame of line 78: over the sorted date index,
the mean sale price of `p` on each date, `none` (`NaN`) on dates where `p` has
no record. -/
def serieDoProduto (rs : List RegistroLido) (p : String) : List (Option ℚ) :=
  (datasOrdenadas rs).map (fun dt =>
    let vs := valoresData rs p dt
    if vs.isEmpty then none else some (media vs))

/-- Mean of the present (non-`NaN`) entries of a window, `NaN` when the
window holds no observation (`min_periods=1`). -/
def mediaAmostras (l : List (Option ℚ)) : Option ℚ :=
  let w := l.filterMap id
  if w.isEmpty then none else some (media w)

/-- One output cell of `rolling(window=30, min_periods=1).mean()` (line 83):
at position `i` the window holds positions `max(0, i - 29) … i`; `NaN` entries
are skipped, and the result is `NaN` only when the window holds no
observation. -/
def mediaJanela (l : List (Option ℚ)) (i : ℕ) : Option ℚ :=
  mediaAmostras ((l.take (i + 1)).drop (i + 1 - 30))

/-- `rolling(window=30, min_periods=1).mean()` over a series. -/
def rollingMean30 (l : List (Option ℚ)) : List (Option ℚ) :=
  (List.range l.length).map (mediaJanela l)

/-- The smoothed series the dashboard plots for a product (line 83). -/
def serieSuavizada (rs : List RegistroLido) (p : String) : List (Option ℚ) :=
  rollingMean30 (serieDoProduto rs p)

/-- The number of records of product `p` (`value_counts`). -/
def contaProduto (rs : List RegistroLido) (p : String) : ℕ :=
  (rs.filter (fun r => decide (r.produto = p))).length

/-- The distinct products in first-occurrence order. -/
def produtos (rs : List RegistroLido) : List String :=
  dedupPrimeiro (rs.map (·.produto))

/-- The highest record count any product attains. -/
def contagemMaxima (rs : List RegistroLido) : ℕ :=
  ((produtos rs).map (contaProduto rs)).foldr max 0

/-- The products attaining the highest count: the value set of
`df['produto'].mode()`. -/
def modas (rs : List RegistroLido) : List String :=
  (produtos rs).filter (fun p => decide (contaProduto rs p = contagemMaxima rs))

/-- Strict lexicographic comparison of character lists by code point, the
order Python uses to compare strings (and hence the order `Series.mode`
sorts by). -/
def ltChars : List Char → List Char → Bool
  | [], [] => false
  | [], _ :: _ => true
  | _ :: _, [] => false
  | a :: as, b :: bs =>
    if a.toNat < b.toNat then true
    else if b.toNat < a.toNat then false
    else ltChars as bs

/-- Strict lexicographic comparison of strings. -/
def ltString (s t : String) : Bool := ltChars s.data t.data

/-- The smaller of two strings (the left one on ties). -/
def minS (s t : String) : String := if ltString t s then t else s

/-- The least string of a list (`""` for the empty list). -/
def minString : List String → String
  | [] => ""
  | [a] => a
  | a :: b :: rest => minS a (minString (b :: rest))

/-- `df['produto'].mode()[0]` (line 99): `Series.mode` sorts the modal values
ascending, so index 0 is the lexicographically least product among those with
maximal count. -/
def produtoMaisComum (rs : List RegistroLido) : String :=
  minString (modas rs)

/-- Following the spec's words, for comparison with `produtoMaisComum`: the
most frequent product with ties broken by first occurrence in the record
collection. -/
def modaPrimeiraOcorrencia (rs : List RegistroLido) : String :=
  ((produtos rs).find? (fun p => decide (contaProduto rs p = contagemMaxima rs))).getD ""

/-- All sale prices of product `p` (line 100). -/
def precosDoProduto (rs : List RegistroLido) (p : String) : List ℚ :=
  (rs.filter (fun r => decide (r.produto = p))).map (·.valorVenda)

/-- Minimum of a nonempty list of rationals (`0` for the empty list). -/
def minQ : List ℚ → ℚ
  | [] => 0
  | a :: rest => rest.foldl min a

/-- Maximum of a nonempty list of rationals (`0` for the empty list). -/
def maxQ : List ℚ → ℚ
  | [] => 0
  | a :: rest => rest.foldl max a

/-- Lower edge of the histogram range: `min vs`, widened by half a unit when
all values coincide (as matplotlib widens a degenerate range). -/
def histLo (vs : List ℚ) : ℚ :=
  if minQ vs = maxQ vs then minQ vs - 1 / 2 else minQ vs

/-- Upper edge of the histogram range. -/
def histHi (vs : List ℚ) : ℚ :=
  if minQ vs = maxQ vs then maxQ vs + 1 / 2 else maxQ vs

/-- Common width of the 30 equal bins. -/
def histLargura (vs : List ℚ) : ℚ := (histHi vs - histLo vs) / 30

/-- Count of the samples falling into bin `i`: bins are closed on the left
and open on the right, except the last bin, which is closed on both sides. -/
def contaBin (vs : List ℚ) (i : ℕ) : ℕ :=
  (vs.filter (fun v =>
    if i = 29 then
      decide (histLo vs + i * histLargura vs ≤ v) &&
      decide (v ≤ histLo vs + (i + 1) * histLargura vs)
    else
      decide (histLo vs + i * histLargura vs ≤ v) &&
      decide (v < histLo vs + (i + 1) * histLargura vs))).length

/-- `plt.hist(vs, bins=30)` (line 102): the list of counts of the 30
equal-width bins spanning `[min vs, max vs]`. -/
def histograma30 (vs : List ℚ) : List ℕ :=
  (List.range 30).map (contaBin vs)

/-- The distinct states in first-occurrence order. -/
def estados (rs : List RegistroLido) : List String :=
  dedupPrimeiro (rs.map (·.estadoSigla))

/-- Mean sale price of state `e` (line 94). -/
def precoMedioEstado (rs : List RegistroLido) (e : String) : ℚ :=
  media ((rs.filter (fun r => decide (r.estadoSigla = e))).map (·.valorVenda))

/-- Insert a string into a lexicographically sorted list. -/
def insereString (x : String) : List String → List String
  | [] => [x]
  | y :: ys => if ltString y x then y :: insereString x ys else x :: y :: ys

/-- Sort strings ascending (groupby sorts its keys). -/
def ordenaStrings (l : List String) : List String := l.foldr insereString []

/-- Stable insertion of a `(state, mean)` pair by ascending mean. -/
def inserePar (x : String × ℚ) : List (String × ℚ) → List (String × ℚ)
  | [] => [x]
  | y :: ys => if x.2 < y.2 then x :: y :: ys else y :: inserePar x ys

/-- Stable sort of `(state, mean)` pairs by ascending mean. -/
def ordenaPares (l : List (String × ℚ)) : List (String × ℚ) := l.foldr inserePar []

/-- `df.groupby('estado_sigla')['valor_venda'].mean().sort_values()`
(line 94): states in ascending order of mean price. -/
def precoMedioPorEstado (rs : List RegistroLido) : List (String × ℚ) :=
  ordenaPares ((ordenaStrings (estados rs)).map (fun e => (e, precoMedioEstado rs e)))

/-- Earliest `data_coleta` (line 73); junk value on the empty list, which the
dashboard never reaches. -/
def dataMinima : List RegistroLido → Date
  | [] => ⟨0, 0, 0⟩
  | r :: rest =>
    rest.foldl (fun acc x =>
      if chaveData x.dataColeta < chaveData acc then x.dataColeta else acc)
      r.dataColeta

/-- Latest `data_coleta` (line 74). -/
def dataMaxima : List RegistroLido → Date
  | [] => ⟨0, 0, 0⟩
  | r :: rest =>
    rest.foldl (fun acc x =>
      if chaveData acc < chaveData x.dataColeta then x.dataColeta else acc)
      r.dataColeta

/-- The structured content of the `analyses` dictionary built by `dashboard`
(lines 69–110).  The two plot files carry, respectively, the smoothed series
of `serieSuavizada` for the most frequent products and the histogram recorded
in `distribuicaoPrecos`. -/
structure Analyses where
  kpiTotalRegistros : ℕ
  kpiDataInicio : Date
  kpiDataFim : Date
  kpiPrecoMedioGeral : ℚ
  top5EstadosBaratos : List (String × ℚ)
  top5EstadosCaros : List (String × ℚ)
  produtoAnalisado : String
  distribuicaoPrecos : List ℕ

/-- The `dashboard` route (lines 55–112): on an empty collection it returns
the explicit empty result (`analyses={}` with the welcome message, line
65–67) and computes no view; otherwise it computes the four views.
`top5EstadosCaros` is `tail(5).sort_values(ascending=False)` (line 96), i.e.
the last five of the ascending ranking, most expensive first. -/
def dashboard (rs : List RegistroLido) : Option Analyses :=
  if rs.isEmpty then none
  else some
    { kpiTotalRegistros := rs.length
      kpiDataInicio := dataMinima rs
      kpiDataFim := dataMaxima rs
      kpiPrecoMedioGeral := media (rs.map (·.valorVenda))
      top5EstadosBaratos := (precoMedioPorEstado rs).take 5
      top5EstadosCaros := ((precoMedioPorEstado rs).reverse).take 5
      produtoAnalisado := produtoMaisComum rs
      distribuicaoPrecos := histograma30 (precosDoProduto rs (produtoMaisComum rs)) }

/-! ## Helper lemmas -/

/-- The head surviving a `dropWhile` fails the predicate. -/
theorem head?_dropWhile_ns {α : Type} (p : α → Bool) (l : List α) :
    ∀ a, (l.dropWhile p).head? = some a → p a = false := by
  induction l with
  | nil => intro a h; simp at h
  | cons x xs ih =>
    intro a h
    rw [List.dropWhile_cons] at h
    by_cases hx : p x = true
    · rw [if_pos hx] at h
      exact ih a h
    · rw [if_neg hx] at h
      simp only [List.head?_cons, Option.some.injEq] at h
      subst h
      exact Bool.eq_false_iff.mpr hx

/-- A stripped character list has no leading whitespace left. -/
theorem dropWhile_stripList (l : List Char) :
    List.dropWhile wsChar (stripList l) = stripList l := by
  rcases h : stripList l with _ | ⟨a, t⟩
  · rfl
  · have hpre : stripList l <+: List.dropWhile wsChar l :=
      List.rdropWhile_prefix wsChar (List.dropWhile wsChar l)
    rw [h] at hpre
    obtain ⟨u, hu⟩ := hpre
    have ha : (List.dropWhile wsChar l).head? = some a := by
      rw [← hu]; rfl
    have hws : wsChar a = false := head?_dropWhile_ns wsChar l a ha
    simp [List.dropWhile_cons, hws]

/-- Stripping is idempotent on character lists. -/
theorem stripList_idem (l : List Char) : stripList (stripList l) = stripList l := by
  show List.rdropWhile wsChar (List.dropWhile wsChar (stripList l)) = stripList l
  rw [dropWhile_stripList]
  exact List.rdropWhile_idempotent wsChar (List.dropWhile wsChar l)

/-- `str.strip()` is idempotent. -/
theorem strip_idem (s : String) : strip (strip s) = strip s :=
  congrArg String.mk (stripList_idem s.data)

/-- On a normalized batch row the key recomputed at read time coincides with
the key it carries into the merge. -/
theorem chaveExistente_normaliza (x : RawRow) :
    chaveExistente (normalizaLinha x) = chaveNova (normalizaLinha x) := by
  simp [chaveExistente, chaveNova, normalizaLinha, strip_idem]

/-- Batch rows are normalized, so both key views agree on them. -/
theorem chaveExistente_lote {file : List RawRow} {t : Registro} (ht : t ∈ lote file) :
    chaveExistente t = chaveNova t := by
  obtain ⟨x, -, rfl⟩ := List.mem_map.mp ht
  exact chaveExistente_normaliza x

/-- `drop_duplicates` keeps a subsequence of its input. -/
theorem dropDuplicatesAux_sublist (seen : List (Option String × Option String × Option String)) :
    ∀ l : List RawRow, (dropDuplicatesAux seen l).Sublist l := by
  intro l
  induction l generalizing seen with
  | nil => simp [dropDuplicatesAux]
  | cons x xs ih =>
    rw [dropDuplicatesAux]
    by_cases h : chaveBruta x ∈ seen
    · rw [if_pos h]
      exact (ih seen).trans (List.sublist_cons_self x xs)
    · rw [if_neg h]
      exact List.Sublist.cons₂ x (ih (chaveBruta x :: seen))

/-- What survives `drop_duplicates` avoids the seen keys and carries pairwise
distinct raw keys. -/
theorem dropDuplicatesAux_spec (seen : List (Option String × Option String × Option String)) :
    ∀ l : List RawRow,
      (∀ x ∈ dropDuplicatesAux seen l, chaveBruta x ∉ seen) ∧
      (dropDuplicatesAux seen l).Pairwise (fun a b => chaveBruta a ≠ chaveBruta b) := by
  intro l
  induction l generalizing seen with
  | nil => simp [dropDuplicatesAux]
  | cons x xs ih =>
    rw [dropDuplicatesAux]
    by_cases h : chaveBruta x ∈ seen
    · rw [if_pos h]
      exact ih seen
    · rw [if_neg h]
      obtain ⟨ihmem, ihpw⟩ := ih (chaveBruta x :: seen)
      refine ⟨?_, ?_⟩
      · intro y hy
        rcases List.mem_cons.mp hy with rfl | hy'
        · exact h
        · exact fun hs => ihmem y hy' (List.mem_cons_of_mem _ hs)
      · refine List.pairwise_cons.mpr ⟨?_, ihpw⟩
        intro y hy hxy
        exact ihmem y hy (hxy ▸ List.mem_cons_self _ _)

/-- Every input row's raw key is either already seen or represented in the
output of `drop_duplicates`. -/
theorem dropDuplicatesAux_cobre (seen : List (Option String × Option String × Option String)) :
    ∀ l : List RawRow, ∀ x ∈ l,
      chaveBruta x ∈ seen ∨ chaveBruta x ∈ (dropDuplicatesAux seen l).map chaveBruta := by
  intro l
  induction l generalizing seen with
  | nil => intro x hx; cases hx
  | cons y ys ih =>
    intro x hx
    rw [dropDuplicatesAux]
    by_cases h : chaveBruta y ∈ seen
    · rw [if_pos h]
      rcases List.mem_cons.mp hx with rfl | hx'
      · exact Or.inl h
      · exact ih seen x hx'
    · rw [if_neg h]
      rcases List.mem_cons.mp hx with rfl | hx'
      · exact Or.inr (by simp)
      · rcases ih (chaveBruta y :: seen) x hx' with hs | ho
        · rcases List.mem_cons.mp hs with he | hs'
          · exact Or.inr (by simp [he])
          · exact Or.inl hs'
        · exact Or.inr (List.mem_cons_of_mem _ ho)

/-- Splitting a successful incremental `UNIQUE` check at its head. -/
theorem insercaoOk_cons {S t rest} (h : insercaoOk S (t :: rest) = true) :
    (∀ r ∈ S, conflitoUnique r t = false) ∧ insercaoOk (S ++ [t]) rest = true := by
  rw [insercaoOk, Bool.and_eq_true, List.all_eq_true] at h
  refine ⟨fun r hr => ?_, h.2⟩
  have hb := h.1 r hr
  rwa [Bool.not_eq_true'] at hb

/-- A successful append conflicts with nothing in the prior table. -/
theorem insercaoOk_mem {l : List Registro} :
    ∀ {S : List Registro}, insercaoOk S l = true →
      ∀ r ∈ S, ∀ b ∈ l, conflitoUnique r b = false := by
  induction l with
  | nil => intro S _ r _ b hb; cases hb
  | cons t rest ih =>
    intro S h r hr b hb
    obtain ⟨h1, h2⟩ := insercaoOk_cons h
    rcases List.mem_cons.mp hb with rfl | hb'
    · exact h1 r hr
    · exact ih h2 r (List.mem_append_left _ hr) b hb'

/-- A successful append is conflict-free within the inserted batch. -/
theorem insercaoOk_pairwise {l : List Registro} :
    ∀ {S : List Registro}, insercaoOk S l = true →
      l.Pairwise (fun a b => conflitoUnique a b = false) := by
  induction l with
  | nil => intro S _; exact List.Pairwise.nil
  | cons t rest ih =>
    intro S h
    obtain ⟨-, h2⟩ := insercaoOk_cons h
    refine List.pairwise_cons.mpr ⟨?_, ih h2⟩
    intro b hb
    exact insercaoOk_mem h2 t (List.mem_append_right _ (List.mem_singleton.mpr rfl)) b hb

/-- Rows selected for insertion come from the batch. -/
theorem dfToInsert_subset {S : List Registro} {file : List RawRow} :
    ∀ t ∈ dfToInsert S file, t ∈ lote file :=
  fun _ ht => List.mem_of_mem_filter ht

/-- Rows selected for insertion have keys absent from the store. -/
theorem dfToInsert_chave {S : List Registro} {file : List RawRow} :
    ∀ t ∈ dfToInsert S file, chaveNova t ∉ chavesExistentes S := by
  intro t ht
  have := List.of_mem_filter ht
  exact of_decide_eq_true this

/-- A batch row whose key is absent from the store is selected. -/
theorem mem_dfToInsert {S : List Registro} {file : List RawRow} {t : Registro}
    (h1 : t ∈ lote file) (h2 : chaveNova t ∉ chavesExistentes S) :
    t ∈ dfToInsert S file :=
  List.mem_filter.mpr ⟨h1, decide_eq_true h2⟩

/-- A normalized row whose key the merge did not find in the store cannot hit
the `UNIQUE` index of any stored record: an index conflict would force the
exact key equality the merge tests for. -/
theorem conflito_store_falso {S : List Registro} {t : Registro}
    (hnorm : chaveExistente t = chaveNova t)
    (h2 : chaveNova t ∉ chavesExistentes S) :
    ∀ r ∈ S, conflitoUnique r t = false := by
  intro r hr
  by_contra hc
  rw [Bool.not_eq_false, conflitoUnique] at hc
  simp only [Bool.and_eq_true, decide_eq_true_eq] at hc
  obtain ⟨⟨⟨hcn, hpr⟩, -⟩, hdt⟩ := hc
  apply h2
  have : chaveExistente r = chaveNova t := by
    rw [← hnorm]
    simp [chaveExistente, hcn, hpr, hdt]
  exact this ▸ List.mem_map_of_mem chaveExistente hr

/-- Unfolding a successful ingestion. -/
theorem ingestao_eq_some {S : List Registro} {file : List RawRow}
    {S' : List Registro} {n d : ℕ} (h : ingestao S file = some (S', n, d)) :
    S' = S ++ dfToInsert S file ∧ n = (dfToInsert S file).length ∧
    d = (lote file).length - n ∧ insercaoOk S (dfToInsert S file) = true := by
  rw [ingestao] at h
  by_cases hok : insercaoOk S (dfToInsert S file) = true
  · rw [if_pos hok] at h
    simp only [Option.some.injEq, Prod.mk.injEq] at h
    obtain ⟨h1, h2, h3⟩ := h
    exact ⟨h1.symm, h2.symm, by rw [← h3, h2], hok⟩
  · rw [if_neg hok] at h
    cases h

/-- Rows of a normalized batch carry already-stripped key strings. -/
theorem lote_normalizado {file : List RawRow} {t : Registro} (ht : t ∈ lote file) :
    strip t.cnpjRevenda = t.cnpjRevenda ∧ strip t.produto = t.produto := by
  obtain ⟨x, -, rfl⟩ := List.mem_map.mp ht
  exact ⟨strip_idem _, strip_idem _⟩

/-- The uniqueness property the pipeline maintains: two stored records can
share the normalized key triple only when their collection date is absent. -/
def ChaveUnica (S : List Registro) : Prop :=
  S.Pairwise (fun a b => chaveExistente a = chaveExistente b → a.dataColeta = none)

/-- Stored key strings are already stripped (they were stripped on insert). -/
def Normalizado (S : List Registro) : Prop :=
  ∀ r ∈ S, strip r.cnpjRevenda = r.cnpjRevenda ∧ strip r.produto = r.produto

/-- One upload request preserves both store invariants. -/
theorem passo_preserva {S : List Registro} (file : List RawRow)
    (h1 : ChaveUnica S) (h2 : Normalizado S) :
    ChaveUnica (passoIngestao S file) ∧ Normalizado (passoIngestao S file) := by
  rw [passoIngestao]
  cases hing : ingestao S file with
  | none => exact ⟨h1, h2⟩
  | some res =>
    obtain ⟨S', n, d⟩ := res
    obtain ⟨hS', -, -, hok⟩ := ingestao_eq_some hing
    subst hS'
    constructor
    · rw [ChaveUnica, List.pairwise_append]
      refine ⟨h1, ?_, ?_⟩
      · have hpw := insercaoOk_pairwise hok
        refine hpw.imp_of_mem ?_
        intro a b ha hb hc heq
        have hna := chaveExistente_lote (dfToInsert_subset a ha)
        have hnb := chaveExistente_lote (dfToInsert_subset b hb)
        rw [hna, hnb, chaveNova, chaveNova, Prod.mk.injEq, Prod.mk.injEq] at heq
        obtain ⟨e1, e2, e3⟩ := heq
        rw [conflitoUnique, e1, e3, e2] at hc
        simp only [decide_eq_true_eq, Bool.and_eq_false_iff, decide_eq_false_iff_not,
          not_true_eq_false] at hc
        rw [e2]
        rcases hdc : b.dataColeta with _ | v
        · rfl
        · exfalso
          rcases hc with ((hcn | hpr) | hs) | hdt
          · exact hcn
          · exact hpr
          · rw [hdc] at hs; cases hs
          · exact hdt
      · intro a ha b hb heq
        exfalso
        have hkb : chaveNova b ∉ chavesExistentes S := dfToInsert_chave b hb
        apply hkb
        rw [← chaveExistente_lote (dfToInsert_subset b hb), ← heq]
        exact List.mem_map_of_mem chaveExistente ha
    · intro r hr
      rcases List.mem_append.mp hr with h | h
      · exact h2 r h
      · exact lote_normalizado (dfToInsert_subset r h)

/-- Both store invariants hold after any sequence of uploads from the empty
table. -/
theorem execIngestoes_inv (files : List (List RawRow)) :
    ChaveUnica (execIngestoes files) ∧ Normalizado (execIngestoes files) := by
  suffices h : ∀ S, ChaveUnica S → Normalizado S →
      ChaveUnica (files.foldl passoIngestao S) ∧
      Normalizado (files.foldl passoIngestao S) by
    exact h [] List.Pairwise.nil (by intro r hr; cases hr)
  induction files with
  | nil => exact fun S a b => ⟨a, b⟩
  | cons f fs ih =>
    intro S a b
    obtain ⟨a', b'⟩ := passo_preserva f a b
    exact ih _ a' b'

/-- After a successful ingestion of a file, re-ingesting the same file selects
nothing for insertion. -/
theorem dfToInsert_apos {S : List Registro} {file : List RawRow}
    {S' : List Registro} {n d : ℕ} (h : ingestao S file = some (S', n, d)) :
    dfToInsert S' file = [] := by
  obtain ⟨hS', -, -, -⟩ := ingestao_eq_some h
  subst hS'
  rw [dfToInsert, List.filter_eq_nil_iff]
  intro t ht
  simp only [decide_eq_true_eq, not_not]
  rw [chavesExistentes, List.map_append]
  by_cases hm : chaveNova t ∈ chavesExistentes S
  · exact List.mem_append_left _ hm
  · have hins : t ∈ dfToInsert S file := mem_dfToInsert ht hm
    refine List.mem_append_right _ ?_
    rw [← chaveExistente_lote ht]
    exact List.mem_map_of_mem chaveExistente hins

/-- The byte-wise strict order is irreflexive. -/
theorem ltChars_irrefl (l : List Char) : ltChars l l = false := by
  induction l with
  | nil => rfl
  | cons a as ih => simp [ltChars, Nat.lt_irrefl, ih]

/-- The byte-wise strict order is asymmetric. -/
theorem ltChars_asymm : ∀ (x y : List Char), ltChars x y = true → ltChars y x = false := by
  intro x
  induction x with
  | nil =>
    intro y h
    cases y with
    | nil => exact absurd h (by simp [ltChars])
    | cons b bs => simp [ltChars]
  | cons a as ih =>
    intro y h
    cases y with
    | nil => exact absurd h (by simp [ltChars])
    | cons b bs =>
      by_cases h1 : a.toNat < b.toNat
      · have h2 : ¬ b.toNat < a.toNat := Nat.lt_asymm h1
        simp [ltChars, h1, h2]
      · by_cases h2 : b.toNat < a.toNat
        · rw [ltChars] at h
          simp [h1, h2] at h
        · have h3 : ltChars as bs = true := by
            rw [ltChars] at h
            simpa [h1, h2] using h
          simp [ltChars, h1, h2, ih bs h3]

/-- The complement of the byte-wise strict order is transitive. -/
theorem ltChars_le_trans :
    ∀ (x y z : List Char), ltChars x y = false → ltChars y z = false →
      ltChars x z = false := by
  intro x
  induction x with
  | nil =>
    intro y z h1 h2
    cases y with
    | nil => exact h2
    | cons b bs => exact absurd h1 (by simp [ltChars])
  | cons a as ih =>
    intro y z h1 h2
    cases z with
    | nil => simp [ltChars]
    | cons c cs =>
      cases y with
      | nil => exact absurd h2 (by simp [ltChars])
      | cons b bs =>
        by_cases hab : a.toNat < b.toNat
        · rw [ltChars] at h1
          simp [hab] at h1
        · by_cases hbc : b.toNat < c.toNat
          · rw [ltChars] at h2
            simp [hbc] at h2
          · have hba : b.toNat ≤ a.toNat := Nat.le_of_not_lt hab
            have hcb : c.toNat ≤ b.toNat := Nat.le_of_not_lt hbc
            have hac : ¬ a.toNat < c.toNat := Nat.not_lt.mpr (hcb.trans hba)
            by_cases hca : c.toNat < a.toNat
            · simp [ltChars, hac, hca]
            · have hba' : ¬ b.toNat < a.toNat := fun hlt => hca (lt_of_le_of_lt hcb hlt)
              have hcb' : ¬ c.toNat < b.toNat := fun hlt => hca (lt_of_lt_of_le hlt hba)
              have t1 : ltChars as bs = false := by
                rw [ltChars] at h1
                simpa [hab, hba'] using h1
              have t2 : ltChars bs cs = false := by
                rw [ltChars] at h2
                simpa [hbc, hcb'] using h2
              simp [ltChars, hac, hca, ih bs cs t1 t2]

/-- `minS` returns one of its arguments. -/
theorem minS_cases (a b : String) : minS a b = a ∨ minS a b = b := by
  rw [minS]
  split
  · exact Or.inr rfl
  · exact Or.inl rfl

/-- `minString` of a nonempty list is one of its elements. -/
theorem minString_mem : ∀ (l : List String), l ≠ [] → minString l ∈ l
  | [], h => absurd rfl h
  | [a], _ => by simp [minString]
  | a :: b :: rest, _ => by
    show minS a (minString (b :: rest)) ∈ a :: b :: rest
    rcases minS_cases a (minString (b :: rest)) with h | h
    · rw [h]
      exact List.mem_cons_self _ _
    · rw [h]
      exact List.mem_cons_of_mem _ (minString_mem (b :: rest) (by simp))

/-- No element of a list is strictly below its `minString`. -/
theorem minString_le : ∀ (l : List String), ∀ q ∈ l, ltString q (minString l) = false
  | [], q, hq => absurd hq (List.not_mem_nil q)
  | [a], q, hq => by
    rcases List.mem_singleton.mp hq with rfl
    exact ltChars_irrefl _
  | a :: b :: rest, q, hq => by
    show ltString q (minS a (minString (b :: rest))) = false
    rw [minS]
    by_cases hlt : ltString (minString (b :: rest)) a = true
    · rw [if_pos hlt]
      rcases List.mem_cons.mp hq with rfl | hq'
      · exact ltChars_asymm _ _ hlt
      · exact minString_le (b :: rest) q hq'
    · rw [if_neg hlt]
      have ha : ltString (minString (b :: rest)) a = false := Bool.eq_false_iff.mpr hlt
      rcases List.mem_cons.mp hq with rfl | hq'
      · exact ltChars_irrefl _
      · exact ltChars_le_trans _ _ _ (minString_le (b :: rest) q hq') ha

/-- Every element is bounded by the `foldr max 0` of its list. -/
theorem le_foldr_max (l : List ℕ) : ∀ x ∈ l, x ≤ l.foldr max 0 := by
  induction l with
  | nil => intro x hx; cases hx
  | cons a as ih =>
    intro x hx
    rcases List.mem_cons.mp hx with rfl | hx'
    · exact le_max_left _ _
    · exact (ih x hx').trans (le_max_right a _)

/-- `foldr max 0` of a nonempty list of naturals is attained. -/
theorem foldr_max_mem : ∀ (l : List ℕ), l ≠ [] → l.foldr max 0 ∈ l
  | [], h => absurd rfl h
  | [a], _ => by simp
  | a :: b :: rest, _ => by
    rcases le_total a ((b :: rest).foldr max 0) with h | h
    · have he : (a :: b :: rest).foldr max 0 = (b :: rest).foldr max 0 := max_eq_right h
      rw [he]
      exact List.mem_cons_of_mem _ (foldr_max_mem (b :: rest) (by simp))
    · have he : (a :: b :: rest).foldr max 0 = a := max_eq_left h
      rw [he]
      exact List.mem_cons_self _ _

/-- Membership in the first-occurrence deduplication, relative to the seen
accumulator. -/
theorem mem_dedupPrimeiroAux {α : Type} [DecidableEq α] :
    ∀ (l seen : List α) (x : α),
      x ∈ dedupPrimeiroAux seen l ↔ x ∈ l ∧ x ∉ seen := by
  intro l
  induction l with
  | nil => intro seen x; simp [dedupPrimeiroAux]
  | cons y ys ih =>
    intro seen x
    rw [dedupPrimeiroAux]
    by_cases h : y ∈ seen
    · rw [if_pos h, ih]
      constructor
      · rintro ⟨hx, hs⟩
        exact ⟨List.mem_cons_of_mem _ hx, hs⟩
      · rintro ⟨hx, hs⟩
        rcases List.mem_cons.mp hx with rfl | hx'
        · exact absurd h hs
        · exact ⟨hx', hs⟩
    · rw [if_neg h]
      simp only [List.mem_cons, ih]
      constructor
      · rintro (rfl | ⟨hx, hs⟩)
        · exact ⟨Or.inl rfl, h⟩
        · exact ⟨Or.inr hx, fun hs' => hs (Or.inr hs')⟩
      · rintro ⟨rfl | hx, hs⟩
        · exact Or.inl rfl
        · by_cases hxy : x = y
          · exact Or.inl hxy
          · refine Or.inr ⟨hx, fun hm => ?_⟩
            rcases hm with h' | h'
            · exact hxy h'
            · exact hs h'

/-- First-occurrence deduplication preserves membership. -/
theorem mem_dedupPrimeiro {α : Type} [DecidableEq α] (l : List α) (x : α) :
    x ∈ dedupPrimeiro l ↔ x ∈ l := by
  rw [dedupPrimeiro, mem_dedupPrimeiroAux]
  simp

/-- A product with a positive count occurs in the product list. -/
theorem contaProduto_pos_mem {rs : List RegistroLido} {q : String}
    (h : contaProduto rs q ≠ 0) : q ∈ produtos rs := by
  rw [contaProduto] at h
  have hne : rs.filter (fun r => decide (r.produto = q)) ≠ [] := by
    intro he
    rw [he] at h
    exact h rfl
  obtain ⟨r, hr⟩ := List.exists_mem_of_ne_nil _ hne
  have hrq : r.produto = q := of_decide_eq_true (List.mem_filter.mp hr).2
  rw [produtos, mem_dedupPrimeiro, ← hrq]
  exact List.mem_map_of_mem _ (List.mem_filter.mp hr).1

/-- On a nonempty collection some product attains the maximal count. -/
theorem modas_ne_nil {rs : List RegistroLido} (h : rs ≠ []) : modas rs ≠ [] := by
  obtain ⟨r, rest, rfl⟩ := List.exists_cons_of_ne_nil h
  have hprod : produtos (r :: rest) ≠ [] := by
    apply List.ne_nil_of_mem (a := r.produto)
    rw [produtos, mem_dedupPrimeiro]
    exact List.mem_map_of_mem _ (List.mem_cons_self _ _)
  have hmax : contagemMaxima (r :: rest) ∈
      (produtos (r :: rest)).map (contaProduto (r :: rest)) :=
    foldr_max_mem _ (by simpa using hprod)
  obtain ⟨p, hp, hpc⟩ := List.mem_map.mp hmax
  apply List.ne_nil_of_mem (a := p)
  rw [modas]
  exact List.mem_filter.mpr ⟨hp, decide_eq_true hpc⟩

/-- A modal product occurs in the product list and attains the maximum. -/
theorem mem_modas {rs : List RegistroLido} {p : String} (h : p ∈ modas rs) :
    p ∈ produtos rs ∧ contaProduto rs p = contagemMaxima rs := by
  have hf := List.mem_filter.mp h
  exact ⟨hf.1, of_decide_eq_true hf.2⟩

/-- Reading one cell of the rolling mean. -/
theorem rollingMean30_get (l : List (Option ℚ)) (i : ℕ) (h : i < l.length) :
    (rollingMean30 l)[i]? = some (mediaJanela l i) := by
  rw [rollingMean30, List.getElem?_map, List.getElem?_range h]
  rfl

/-- The rolling mean of a singleton series is the series itself. -/
theorem rollingMean30_singleton (a : Option ℚ) : rollingMean30 [a] = [a] := by
  cases a with
  | none => rfl
  | some v =>
    show [mediaJanela [some v] 0] = [some v]
    simp [mediaJanela, mediaAmostras, media]

/-! ## The claims -/

/-- A row whose date text is the invalid calendar date `31/02/2024`; every
other field is ordinary. -/
def linhaC1a : RawRow :=
  ⟨none, none, none, none, some "11222333000199", some "GASOLINA",
   some "31/02/2024", some "5,79", none, none, none⟩

/-- A second row, identical except for the (also invalid) date text
`30/02/2024`, so its raw key differs and `drop_duplicates` keeps both. -/
def linhaC1b : RawRow :=
  ⟨none, none, none, none, some "11222333000199", some "GASOLINA",
   some "30/02/2024", some "5,81", none, none, none⟩

/-- C1 counterexample: ingesting, into the empty Store, one file holding two
rows with equal `cnpj_revenda` and `produto` and two distinct unparsable date
texts leaves the Store with two records whose normalized key triples are
equal — both `("11222333000199", NULL, "GASOLINA")`.  The `dropna` of key
fields runs before date parsing, so both rows survive with a `NULL` date, and
the SQLite `UNIQUE` index never equates `NULL`s, so both inserts succeed. -/
theorem unicidade_chave_cex :
    (execIngestoes [[linhaC1a, linhaC1b]]).map chaveExistente =
      [("11222333000199", none, "GASOLINA"),
       ("11222333000199", none, "GASOLINA")] := by decide

/-- C1 (amended): starting from the empty Store, after every sequence of
ingestion calls, no two records of the Store share the normalized key triple
(whitespace-stripped `cnpj_revenda`, canonical `data_coleta`, stripped
`produto`) unless their collection date is absent; records stored with a
`NULL` date (rows whose date text failed to parse) are exempt and may
repeat. -/
theorem unicidade_chave (files : List (List RawRow)) :
    (execIngestoes files).Pairwise
      (fun a b => chaveExistente a = chaveExistente b → a.dataColeta = none) :=
  (execIngestoes_inv files).1

/-- C2: ingestion is idempotent — if ingesting a file into store `S` succeeds
and produces store `S'`, then ingesting the identical file into `S'` succeeds,
reports `new_count = 0`, classifies every cleaned row as a duplicate, and
leaves the Store contents exactly `S'`. -/
theorem ingestao_idempotente (S : List Registro) (file : List RawRow)
    (S' : List Registro) (n d : ℕ) (h : ingestao S file = some (S', n, d)) :
    ingestao S' file = some (S', 0, (lote file).length) := by
  have hins : dfToInsert S' file = [] := dfToInsert_apos h
  rw [ingestao]
  simp [hins, insercaoOk]

/-- An ordinary fully-populated valid row. -/
def linhaC2 : RawRow :=
  ⟨some "SE", some "SP", some "Santos", some "Posto X", some "11222333000199",
   some "GASOLINA", some "05/03/2024", some "5,79", some "5,10",
   some "R$ / litro", some "BANDEIRA X"⟩

/-- C2 witness: a concrete first ingestion into the empty Store succeeds with
one new record, and re-ingesting the same file returns `new_count = 0`, one
duplicate, and the unchanged store. -/
theorem ingestao_idempotente_wit :
    ingestao [] [linhaC2] = some ([normalizaLinha linhaC2], 1, 0) ∧
    ingestao [normalizaLinha linhaC2] [linhaC2] =
      some ([normalizaLinha linhaC2], 0, 1) := by
  have h1 : ingestao [] [linhaC2] = some ([normalizaLinha linhaC2], 1, 0) := by decide
  have h2 := ingestao_idempotente [] [linhaC2] [normalizaLinha linhaC2] 1 0 h1
  have h3 : (lote [linhaC2]).length = 1 := by decide
  rw [h3] at h2
  exact ⟨h1, h2⟩

/-- C3: normalization equivalence in deduplication — for every stored record
`r` and incoming row `x` whose `cnpj_revenda` agrees with `r`'s up to
surrounding whitespace, whose `produto` agrees up to surrounding whitespace,
and whose date text parses to `r`'s stored date (any equivalent `%d/%m/%Y`
spelling), the merge finds `x`'s normalized key among the existing keys, and
no record carrying that key is ever selected for insertion, whatever file `x`
arrives in. -/
theorem normalizacao_equivalente (S : List Registro) (r : Registro) (x : RawRow)
    (file : List RawRow) (c p ds : String)
    (hr : r ∈ S)
    (hc : x.cnpjRevenda = some c) (hcs : strip c = strip r.cnpjRevenda)
    (hp : x.produto = some p) (hps : strip p = strip r.produto)
    (hd : x.dataColeta = some ds) (hds : parseDataColeta ds = r.dataColeta) :
    chaveNova (normalizaLinha x) ∈ chavesExistentes S ∧
    ∀ t ∈ dfToInsert S file, chaveNova t ≠ chaveNova (normalizaLinha x) := by
  have hkey : chaveNova (normalizaLinha x) = chaveExistente r := by
    simp [chaveNova, normalizaLinha, chaveExistente, hc, hp, hd, hcs, hps, hds]
  constructor
  · rw [hkey]
    exact List.mem_map_of_mem chaveExistente hr
  · intro t ht heq
    apply dfToInsert_chave t ht
    rw [heq, hkey]
    exact List.mem_map_of_mem chaveExistente hr

/-- The stored record for the C3 witness: canonical date 2024-03-05, stripped
key strings. -/
def registroC3 : Registro :=
  ⟨none, none, none, none, "11222333000199", "GASOLINA", some ⟨2024, 3, 5⟩,
   some "5,79", none, none, none⟩

/-- An incoming row that is textually different but semantically identical to
`registroC3`: whitespace-padded `cnpj_revenda` and `produto`, and the date
written `5/3/2024` instead of `05/03/2024`. -/
def linhaC3 : RawRow :=
  ⟨none, none, none, none, some " 11222333000199 ", some "GASOLINA ",
   some "5/3/2024", some "5,81", none, none, none⟩

/-- C3 witness: with the store `[registroC3]` and the textually different row
`linhaC3`, the hypotheses hold by computation and the row is classified as a
duplicate, never inserted. -/
theorem normalizacao_equivalente_wit :
    chaveNova (normalizaLinha linhaC3) ∈ chavesExistentes [registroC3] ∧
    ∀ t ∈ dfToInsert [registroC3] [linhaC3],
      chaveNova t ≠ chaveNova (normalizaLinha linhaC3) :=
  normalizacao_equivalente [registroC3] registroC3 linhaC3 [linhaC3]
    " 11222333000199 " "GASOLINA " "5/3/2024"
    (by decide) (by decide) (by decide) (by decide) (by decide) (by decide)
    (by decide)

/-- A row whose date text `31/02/2024` is present but fails to parse as a
calendar date, with every key field present. -/
def linhaC4 : RawRow :=
  ⟨some "SE", some "SP", some "Santos", some "Posto X", some "11222333000199",
   some "GASOLINA", some "31/02/2024", some "5,79", none, some "R$ / litro",
   some "BR"⟩

/-- C4: the claim says a row whose `collection_date` fails to parse is
rejected before the merge, never stored and never counted — but the code
drops missing-key rows *before* parsing dates (`dropna` on line 135 versus
`to_datetime(errors='coerce')` on line 141), so the row sails through the
merge with a `NaN` date, is stored with a `NULL` `data_coleta`, and is
counted as new: ingesting `linhaC4` into the empty Store yields one stored
record with an absent date and the report `new = 1, duplicates = 0`. -/
theorem data_invalida_armazenada :
    ingestao [] [linhaC4] =
      some ([⟨some "SE", some "SP", some "Santos", some "Posto X",
             "11222333000199", "GASOLINA", none, some "5,79", none,
             some "R$ / litro", some "BR"⟩], 1, 0) := by decide

/-- A row whose `cnpj_revenda` carries surrounding whitespace. -/
def linhaC5a : RawRow :=
  ⟨none, none, none, none, some " 11222333000199 ", some "GASOLINA",
   some "01/01/2024", some "5,79", none, none, none⟩

/-- The same observation with the `cnpj_revenda` already stripped: a distinct
raw key but the same normalized key. -/
def linhaC5b : RawRow :=
  ⟨none, none, none, none, some "11222333000199", some "GASOLINA",
   some "01/01/2024", some "5,81", none, none, none⟩

/-- C5 counterexample: `drop_duplicates` (line 136) runs on the *raw* key
triples, before stripping and date parsing, so two rows that normalize to the
same key but differ textually both survive to the merge step: the cleaned
batch of `[linhaC5a, linhaC5b]` holds two rows with the identical normalized
key, refuting "at most one row per normalized key survives to the merge". -/
theorem dedup_lote_cex :
    (lote [linhaC5a, linhaC5b]).map chaveNova =
      [("11222333000199", some ⟨2024, 1, 1⟩, "GASOLINA"),
       ("11222333000199", some ⟨2024, 1, 1⟩, "GASOLINA")] := by decide

/-- C5 (amended): intra-batch deduplication is performed on the raw textual
key triples, before normalization, keeping the first occurrence: the cleaned
batch carries pairwise distinct raw keys, is a subsequence of the filtered
file (so the survivor choice is deterministic), and every non-empty row with
its key fields present is represented in it through its raw key.  Rows that
normalize to the same key while differing textually all survive. -/
theorem dedup_lote_bruto (file : List RawRow) :
    (dfNewRows file).Pairwise (fun a b => chaveBruta a ≠ chaveBruta b) ∧
    (dfNewRows file).Sublist
      ((file.filter (fun x => !linhaVazia x)).filter chavePresente) ∧
    ∀ x ∈ file, linhaVazia x = false → chavePresente x = true →
      chaveBruta x ∈ (dfNewRows file).map chaveBruta := by
  refine ⟨(dropDuplicatesAux_spec [] _).2, dropDuplicatesAux_sublist [] _, ?_⟩
  intro x hx h1 h2
  have hmem : x ∈ (file.filter (fun x => !linhaVazia x)).filter chavePresente :=
    List.mem_filter.mpr ⟨List.mem_filter.mpr ⟨hx, by rw [h1]; rfl⟩, h2⟩
  rcases dropDuplicatesAux_cobre [] _ x hmem with h | h
  · exact absurd h (List.not_mem_nil _)
  · exact h

/-- C5 witness: in the two-row file above, the second row (whose raw key is
new) is represented in the cleaned batch. -/
theorem dedup_lote_bruto_wit :
    chaveBruta linhaC5b ∈ (dfNewRows [linhaC5a, linhaC5b]).map chaveBruta :=
  (dedup_lote_bruto [linhaC5a, linhaC5b]).2.2 linhaC5b (by decide) (by decide)
    (by decide)

/-- Following the spec's words, for comparison with the code's counts: a row
is valid when it is neither entirely empty nor rejected for a missing or
unparsable key field. -/
def linhaValidaSpec (x : RawRow) : Bool :=
  !linhaVazia x && chavePresente x &&
    (parseDataColeta (x.dataColeta.getD "")).isSome

/-- Following the spec's words: the number of valid rows of a file. -/
def contagemValidaSpec (file : List RawRow) : ℕ :=
  (file.filter linhaValidaSpec).length

/-- An ordinary valid row used twice in one file. -/
def linhaC6 : RawRow :=
  ⟨none, none, none, none, some "11222333000199", some "GASOLINA",
   some "05/03/2024", some "5,79", none, none, none⟩

/-- C6 counterexample: a file holding the same valid row twice has two valid
rows in the claim's sense, but `drop_duplicates` removes one before the merge
and the code reports `new = 1, duplicates = 0` (`duplicados` is computed from
`len(df_new)` *after* intra-batch deduplication), so
`new_count + duplicate_count ≠ valid_row_count`. -/
theorem contagem_cex :
    ingestao [] [linhaC6, linhaC6] = some ([normalizaLinha linhaC6], 1, 0) ∧
    contagemValidaSpec [linhaC6, linhaC6] = 2 ∧ 1 + 0 ≠ 2 := by
  refine ⟨by decide, by decide, by decide⟩

/-- C6 (amended): for every successful ingestion the reported counts satisfy
`new_count + duplicate_count = len(df_new)`, the number of file rows that
survive the cleaning steps — dropping all-empty rows, rows with a missing key
cell, and intra-batch raw-key duplicates; rows with an unparsable date are
*not* excluded from the count. -/
theorem contagem_completa (S : List Registro) (file : List RawRow)
    (S' : List Registro) (n d : ℕ) (h : ingestao S file = some (S', n, d)) :
    n + d = (lote file).length := by
  obtain ⟨-, hn, hd, -⟩ := ingestao_eq_some h
  subst hn
  subst hd
  exact Nat.add_sub_cancel' (List.length_filter_le _ _)

/-- C6 witness: a concrete successful ingestion whose counts add up to the
cleaned-batch length. -/
theorem contagem_completa_wit :
    ingestao [] [linhaC6, linhaC6] = some ([normalizaLinha linhaC6], 1, 0) ∧
    1 + 0 = (lote [linhaC6, linhaC6]).length := by
  have h1 : ingestao [] [linhaC6, linhaC6] =
      some ([normalizaLinha linhaC6], 1, 0) := by decide
  exact ⟨h1, contagem_completa [] [linhaC6, linhaC6] [normalizaLinha linhaC6] 1 0 h1⟩

/-- A row with every key field valid whose `valor_venda` text `abc` is not a
number. -/
def linhaC7 : RawRow :=
  ⟨none, some "SP", none, none, some "11222333000199", some "GASOLINA",
   some "05/03/2024", some "abc", none, none, none⟩

/-- C7 counterexample: the code never validates `valor_venda` — a row whose
`sale_price` text is unparsable is not rejected; it is ingested, counted as
new and stored with the text `abc` carried verbatim into the Store,
contradicting "an unparsable sale_price value causes the row to be rejected
(never stored)". -/
theorem preco_invalido_cex :
    ingestao [] [linhaC7] =
      some ([⟨none, some "SP", none, none, "11222333000199", "GASOLINA",
             some ⟨2024, 3, 5⟩, some "abc", none, none, none⟩], 1, 0) := by decide

/-- C7 (amended): ingestion applies no numeric validation at all — a row with
its key fields present is accepted or rejected independently of its
`valor_venda` and `valor_compra` cells, both price cells are carried into the
stored record verbatim, and an absent `valor_compra` is stored absent.  In
particular a single-row file whose key is new is always inserted, whatever
its price cells hold. -/
theorem precos_sem_validacao (S : List Registro) (x : RawRow)
    (hk : chavePresente x = true)
    (hnew : chaveNova (normalizaLinha x) ∉ chavesExistentes S) :
    ingestao S [x] = some (S ++ [normalizaLinha x], 1, 0) ∧
    (normalizaLinha x).valorVenda = x.valorVenda ∧
    (normalizaLinha x).valorCompra = x.valorCompra := by
  have hk' := hk
  rw [chavePresente, Bool.and_eq_true, Bool.and_eq_true] at hk'
  obtain ⟨c, hc⟩ := Option.isSome_iff_exists.mp hk'.1.1
  have hnv : linhaVazia x = false := by
    simp [linhaVazia, hc]
  have hdf : dfNewRows [x] = [x] := by
    simp [dfNewRows, dropDuplicates, dropDuplicatesAux, List.filter_cons, hnv, hk]
  have hlote : lote [x] = [normalizaLinha x] := by
    rw [lote, hdf]
    rfl
  have hins : dfToInsert S [x] = [normalizaLinha x] := by
    rw [dfToInsert, hlote]
    simp [List.filter_cons, hnew]
  have hok : insercaoOk S [normalizaLinha x] = true := by
    rw [insercaoOk, Bool.and_eq_true]
    refine ⟨List.all_eq_true.mpr ?_, rfl⟩
    intro r hr
    rw [conflito_store_falso (chaveExistente_normaliza x) hnew r hr]
    rfl
  refine ⟨?_, rfl, rfl⟩
  rw [ingestao]
  simp [hins, hlote, hok]

/-- A row with a new key, an unparsable `valor_venda` text and an absent
`valor_compra`. -/
def linhaC7w : RawRow :=
  ⟨none, some "RJ", none, none, some "99888777000155", some "ETANOL",
   some "10/02/2024", some "x,y", none, none, none⟩

/-- C7 witness: ingesting `linhaC7w` into the empty Store stores it with the
price text carried verbatim and the purchase price absent. -/
theorem precos_sem_validacao_wit :
    ingestao [] [linhaC7w] = some ([normalizaLinha linhaC7w], 1, 0) ∧
    (normalizaLinha linhaC7w).valorVenda = linhaC7w.valorVenda ∧
    (normalizaLinha linhaC7w).valorCompra = linhaC7w.valorCompra := by
  have h := precos_sem_validacao [] linhaC7w (by decide) (by decide)
  simpa using h

/-- C8: the smoothed time-series view — for every product `p`, the series the
dashboard smooths is the per-date mean of `p`'s sale prices over the sorted
date index, and `rolling(window=30, min_periods=1).mean()` makes the value at
1-based position `i` the mean of the observations present among positions
`max(1, i - 29) … i`; in particular a length-1 series is returned unchanged,
and for a series of length at least 30 the value at position 30 is the mean
of the observations among positions 1–30. -/
theorem media_movel_30 (rs : List RegistroLido) (p : String) :
    (∀ i, i < (serieDoProduto rs p).length →
      (serieSuavizada rs p)[i]? =
        some (mediaAmostras
          (((serieDoProduto rs p).take (i + 1)).drop (i + 1 - 30)))) ∧
    ((serieDoProduto rs p).length = 1 →
      serieSuavizada rs p = serieDoProduto rs p) ∧
    (30 ≤ (serieDoProduto rs p).length →
      (serieSuavizada rs p)[29]? =
        some (mediaAmostras ((serieDoProduto rs p).take 30))) := by
  refine ⟨?_, ?_, ?_⟩
  · intro i h
    exact rollingMean30_get _ i h
  · intro h
    obtain ⟨a, ha⟩ := List.length_eq_one.mp h
    show rollingMean30 (serieDoProduto rs p) = serieDoProduto rs p
    rw [ha]
    exact rollingMean30_singleton a
  · intro h
    have h29 : 29 < (serieDoProduto rs p).length := lt_of_lt_of_le (by norm_num) h
    have hg := rollingMean30_get (serieDoProduto rs p) 29 h29
    show (rollingMean30 (serieDoProduto rs p))[29]? = _
    rw [hg]
    simp [mediaJanela]

/-- A one-observation collection for the C8 witness. -/
def serieC8a : List RegistroLido := [⟨"SP", "GASOLINA", ⟨2024, 1, 1⟩, 5⟩]

/-- Thirty observations of one product on thirty distinct dates for the C8
witness. -/
def serieC8b : List RegistroLido :=
  (List.range 30).map (fun i => ⟨"SP", "GASOLINA", ⟨2024, 1, i + 1⟩, 5⟩)

/-- C8 witness: a singleton series is returned unchanged by the smoothing,
and on a 30-date series position 30 is the mean of the first 30 positions. -/
theorem media_movel_30_wit :
    ((serieDoProduto serieC8a "GASOLINA").length = 1 ∧
     serieSuavizada serieC8a "GASOLINA" = serieDoProduto serieC8a "GASOLINA") ∧
    (30 ≤ (serieDoProduto serieC8b "GASOLINA").length ∧
     (serieSuavizada serieC8b "GASOLINA")[29]? =
       some (mediaAmostras ((serieDoProduto serieC8b "GASOLINA").take 30))) :=
  ⟨⟨by decide, (media_movel_30 serieC8a "GASOLINA").2.1 (by decide)⟩,
   ⟨by decide, (media_movel_30 serieC8b "GASOLINA").2.2 (by decide)⟩⟩

/-- Two products tied at one record each; `ETANOL` occurs first,
`DIESEL` is lexicographically smaller. -/
def registrosC9 : List RegistroLido :=
  [⟨"SP", "ETANOL", ⟨2024, 1, 1⟩, 4⟩, ⟨"SP", "DIESEL", ⟨2024, 1, 2⟩, 6⟩]

/-- C9 counterexample: on a tie `df['produto'].mode()[0]` picks the
lexicographically least modal product (`Series.mode` sorts its result), not
the first-occurring one: here the subject is `DIESEL` although `ETANOL`
occurs first, refuting "ties broken by first occurrence". -/
theorem moda_cex :
    produtoMaisComum registrosC9 = "DIESEL" ∧
    modaPrimeiraOcorrencia registrosC9 = "ETANOL" := by
  exact ⟨by decide, by decide⟩

/-- C9 (amended): for every nonempty collection the distribution subject is a
product of maximal record count, lexicographically least among all maximal
products (the deterministic tie-break of `Series.mode`, which sorts the modal
values ascending before index 0 is taken), and the histogram over that
product's sale prices has exactly 30 bins. -/
theorem distribuicao_moda (rs : List RegistroLido) (h : rs ≠ []) :
    produtoMaisComum rs ∈ modas rs ∧
    (∀ q : String, contaProduto rs q ≤ contaProduto rs (produtoMaisComum rs)) ∧
    (∀ q ∈ modas rs, ltString q (produtoMaisComum rs) = false) ∧
    (histograma30 (precosDoProduto rs (produtoMaisComum rs))).length = 30 := by
  have hne := modas_ne_nil h
  have hmem : produtoMaisComum rs ∈ modas rs := minString_mem _ hne
  have hconta := (mem_modas hmem).2
  refine ⟨hmem, ?_, ?_, ?_⟩
  · intro q
    rw [hconta]
    rcases Nat.eq_zero_or_pos (contaProduto rs q) with hz | hpos
    · rw [hz]
      exact Nat.zero_le _
    · exact le_foldr_max _ _
        (List.mem_map_of_mem _ (contaProduto_pos_mem (Nat.pos_iff_ne_zero.mp hpos)))
  · exact fun q hq => minString_le _ q hq
  · rw [histograma30, List.length_map, List.length_range]

/-- C9 witness: the amended statement evaluated on the two-product
collection. -/
theorem distribuicao_moda_wit :
    produtoMaisComum registrosC9 ∈ modas registrosC9 ∧
    (∀ q : String, contaProduto registrosC9 q ≤
      contaProduto registrosC9 (produtoMaisComum registrosC9)) ∧
    (∀ q ∈ modas registrosC9,
      ltString q (produtoMaisComum registrosC9) = false) ∧
    (histograma30
      (precosDoProduto registrosC9 (produtoMaisComum registrosC9))).length = 30 :=
  distribuicao_moda registrosC9 (by decide)

/-- C10: the aggregation engine returns the explicit empty-dataset indicator
(`analyses = {}` behind the welcome message) exactly when the record
collection is empty; on any nonempty collection it computes the `Analyses`
views instead, so no view and no KPI is ever computed from zero records. -/
theorem dashboard_vazio (rs : List RegistroLido) : dashboard rs = none ↔ rs = [] := by
  cases rs with
  | nil => simp [dashboard]
  | cons r rest => simp [dashboard]
